import Mathlib

set_option maxRecDepth 8192

/-!
Shallow embedding of the `bobum/schematics` registration-validation code.

Two near-duplicate validators are embedded:
* `Server` models `src/server_validation.py` (`RegistrationValidator`):
  fields first_name / last_name / email / password / confirm_password,
  errors accumulated in an insertion-ordered map from field name to message.
* `Forms` models `src/forms/registration_form.py` (`RegistrationForm`):
  fields username / email / password / confirm_password / age / phone,
  errors accumulated in a list of messages.

Python strings are `List Char`; a raw field value is a `Value`
(string, integer, or `None`). Methods that can raise (for instance
calling `.strip()` on an `int`, or handing a non-string to `re.match`)
return `Except PyError`. Regex matching with a trailing `$` follows
Python semantics: `$` also matches just before a single newline at the
end of the string. Whitespace is modelled as the ASCII whitespace set
(the code under validation only manipulates ASCII class characters).
-/

/-- A raw Python value arriving in the input map: `str`, `int`, or `None`. -/
inductive Value where
  | VStr : List Char → Value
  | VNum : Int → Value
  | VNone : Value
deriving DecidableEq

open Value

/-- The exceptions the embedded code can raise. -/
inductive PyError where
  | attributeError : PyError
  | typeError : PyError
deriving DecidableEq

/-- Python truthiness test (`not value`): empty string, `0` and `None` are falsy. -/
def pyFalsy : Value → Bool
  | VStr s => s.isEmpty
  | VNum n => n == 0
  | VNone => true

/-- ASCII whitespace, the characters Python's `str.split()` / `str.strip()` and the
regex class `\s` treat as whitespace in the ASCII range. -/
def isPySpace (c : Char) : Bool :=
  c = ' ' || c = '\t' || c = '\n' || c = '\r' || c = '\x0b' || c = '\x0c'

/-- Python `str.strip()`: drop leading and trailing whitespace. -/
def pyStrip (s : List Char) : List Char :=
  ((s.dropWhile isPySpace).reverse.dropWhile isPySpace).reverse

/-- Worker for `pySplit`, carrying the (reversed) current word. -/
def splitAux : List Char → List Char → List (List Char)
  | [], acc => if acc.isEmpty then [] else [acc.reverse]
  | c :: cs, acc =>
    if isPySpace c then
      if acc.isEmpty then splitAux cs [] else acc.reverse :: splitAux cs []
    else splitAux cs (c :: acc)

/-- Python `str.split()` with no argument: split on runs of whitespace,
discarding empty pieces. -/
def pySplit (s : List Char) : List (List Char) :=
  splitAux s []

/-- Python `' '.join(words)`. -/
def joinSp : List (List Char) → List Char
  | [] => []
  | [w] => w
  | w :: ws => w ++ ' ' :: joinSp ws

/-- Worker for `pyTitle`: the flag records whether the previous character was a letter. -/
def pyTitleGo : Bool → List Char → List Char
  | _, [] => []
  | prevAlpha, c :: cs =>
    (if c.isAlpha then (if prevAlpha then c.toLower else c.toUpper) else c) ::
      pyTitleGo c.isAlpha cs

/-- Python `str.title()` restricted to ASCII: uppercase each letter that starts a
run of letters, lowercase the rest. -/
def pyTitle (s : List Char) : List Char :=
  pyTitleGo false s

/-- `field_name.replace('_', ' ').title()` as used in the server validator's messages. -/
def fieldLabel (f : String) : String :=
  String.mk (pyTitle (f.data.map (fun c => if c = '_' then ' ' else c)))

/-- Python `re` semantics for an anchored `^...$` pattern whose core match is
`core`: `$` matches at the end of the string or just before a newline that ends
the string. -/
def dollarMatch (core : List Char → Bool) (s : List Char) : Bool :=
  core s || (!s.isEmpty && s.getLastD ' ' == '\n' && core s.dropLast)

/-- Insertion-ordered error map of the server validator (`self.errors` dict):
assignment to an existing key overwrites in place, otherwise appends. -/
abbrev FieldErrors := List (String × String)

/-- `self.errors[k] = msg` on a Python (insertion-ordered) dict. -/
def setError (errs : FieldErrors) (k msg : String) : FieldErrors :=
  match errs with
  | [] => [(k, msg)]
  | (k', m') :: rest =>
    if k' = k then (k, msg) :: rest else (k', m') :: setError rest k msg

namespace Server

/-- Character class `[^\s@]` of `EMAIL_REGEX`. -/
def emailChar (c : Char) : Bool :=
  !isPySpace c && c != '@'

/-- Core of `EMAIL_REGEX = ^[^\s@]+@[^\s@]+\.[^\s@]+$` (without the `$`-newline
allowance): a non-empty `[^\s@]+` local part, one `@`, and a domain containing
a dot that is neither its first nor its last character. -/
def emailCore (s : List Char) : Bool :=
  let locpart := s.takeWhile (fun c => c != '@')
  let rest := s.drop (locpart.length + 1)
  decide (locpart.length < s.length) &&
  !locpart.isEmpty &&
  locpart.all (fun c => !isPySpace c) &&
  rest.all emailChar &&
  ((rest.drop 1).dropLast.contains '.')

/-- `EMAIL_REGEX.match` (with Python's trailing-newline tolerance for `$`). -/
def emailMatch (s : List Char) : Bool :=
  dollarMatch emailCore s

/-- The fixed special-character set `@$!%*?&#` of `PASSWORD_REGEX`. -/
def pwSpecial (c : Char) : Bool :=
  c == '@' || c == '$' || c == '!' || c == '%' || c == '*' || c == '?' ||
  c == '&' || c == '#'

/-- Character class `[A-Za-z\d@$!%*?&#]`, the only characters `PASSWORD_REGEX`
lets a password consist of. -/
def pwAllowed (c : Char) : Bool :=
  c.isUpper || c.isLower || c.isDigit || pwSpecial c

/-- Core of `PASSWORD_REGEX`: the four lookaheads plus the 8-or-more body of
allowed characters. -/
def passwordCore (s : List Char) : Bool :=
  s.any Char.isLower && s.any Char.isUpper && s.any Char.isDigit &&
  s.any pwSpecial && decide (8 ≤ s.length) && s.all pwAllowed

/-- `PASSWORD_REGEX.match` (with Python's trailing-newline tolerance for `$`). -/
def passwordMatch (s : List Char) : Bool :=
  dollarMatch passwordCore s

/-- Character class `[a-zA-Z '-]` of the name regex. -/
def nameChar (c : Char) : Bool :=
  c.isAlpha || c == ' ' || c == '-' || c == Char.ofNat 0x27

/-- Core of the name pattern `^[a-zA-Z '-]+$`. -/
def nameCore (s : List Char) : Bool :=
  !s.isEmpty && s.all nameChar

/-- `re.match(r"^[a-zA-Z '-]+$", value)` (with the `$`-newline allowance). -/
def nameMatch (s : List Char) : Bool :=
  dollarMatch nameCore s

/-- `RegistrationValidator.validate_required`: `if not value or not value.strip()`.
Calling `.strip()` on a truthy `int` raises `AttributeError`. -/
def validate_required (field : String) (value : Value) (errs : FieldErrors) :
    Except PyError (Bool × FieldErrors) :=
  match value with
  | VStr s =>
    if s.isEmpty || (pyStrip s).isEmpty then
      .ok (false, setError errs field (fieldLabel field ++ " is required"))
    else .ok (true, errs)
  | VNum n =>
    if n == 0 then
      .ok (false, setError errs field (fieldLabel field ++ " is required"))
    else .error .attributeError
  | VNone => .ok (false, setError errs field (fieldLabel field ++ " is required"))

/-- `RegistrationValidator.validate_email`. -/
def validate_email (email : Value) (errs : FieldErrors) :
    Except PyError (Bool × FieldErrors) :=
  match validate_required "email" email errs with
  | .error e => .error e
  | .ok (false, errs1) => .ok (false, errs1)
  | .ok (true, errs1) =>
    match email with
    | VStr s =>
      if !emailMatch s then
        .ok (false, setError errs1 "email" "Please enter a valid email address")
      else if decide (254 < s.length) then
        .ok (false, setError errs1 "email" "Email address is too long")
      else .ok (true, errs1)
    | _ => .error .typeError

/-- `RegistrationValidator.validate_password`. -/
def validate_password (password : Value) (errs : FieldErrors) :
    Except PyError (Bool × FieldErrors) :=
  match validate_required "password" password errs with
  | .error e => .error e
  | .ok (false, errs1) => .ok (false, errs1)
  | .ok (true, errs1) =>
    match password with
    | VStr s =>
      if decide (s.length < 8) then
        .ok (false, setError errs1 "password"
          "Password must be at least 8 characters long")
      else if decide (128 < s.length) then
        .ok (false, setError errs1 "password"
          "Password is too long (max 128 characters)")
      else if !passwordMatch s then
        .ok (false, setError errs1 "password"
          ("Password must contain at least one uppercase letter, " ++
           "one lowercase letter, one digit, and one special character (@$!%*?&#)"))
      else .ok (true, errs1)
    | _ => .error .typeError

/-- `RegistrationValidator.validate_password_match`. -/
def validate_password_match (password confirm : Value) (errs : FieldErrors) :
    Except PyError (Bool × FieldErrors) :=
  match validate_required "confirm_password" confirm errs with
  | .error e => .error e
  | .ok (false, errs1) => .ok (false, errs1)
  | .ok (true, errs1) =>
    if password != confirm then
      .ok (false, setError errs1 "confirm_password" "Passwords do not match")
    else .ok (true, errs1)

/-- `RegistrationValidator.validate_name`. -/
def validate_name (field : String) (value : Value) (errs : FieldErrors) :
    Except PyError (Bool × FieldErrors) :=
  match validate_required field value errs with
  | .error e => .error e
  | .ok (false, errs1) => .ok (false, errs1)
  | .ok (true, errs1) =>
    match value with
    | VStr s =>
      if decide ((pyStrip s).length < 2) then
        .ok (false, setError errs1 field
          (fieldLabel field ++ " must be at least 2 characters"))
      else if decide (50 < s.length) then
        .ok (false, setError errs1 field
          (fieldLabel field ++ " is too long (max 50 characters)"))
      else if !nameMatch s then
        .ok (false, setError errs1 field
          (fieldLabel field ++
            " can only contain letters, spaces, hyphens, and apostrophes"))
      else .ok (true, errs1)
    | _ => .error .typeError

/-- The input map of `validate_registration`: each field is present with a raw
value or absent (`data.get(key, '')` supplies `''` for absent keys). -/
structure RegData where
  first_name : Option Value
  last_name : Option Value
  email : Option Value
  password : Option Value
  confirm_password : Option Value
deriving DecidableEq

/-- `data.get(key, '')`. -/
def getS (v : Option Value) : Value :=
  v.getD (VStr [])

/-- `RegistrationValidator.validate_registration`: resets the error accumulator,
runs the five field validators in order, and conjoins their verdicts. -/
def validate_registration (data : RegData) (_initErrs : FieldErrors) :
    Except PyError (Bool × FieldErrors) :=
  match validate_name "first_name" (getS data.first_name) [] with
  | .error e => .error e
  | .ok (b1, e1) =>
    match validate_name "last_name" (getS data.last_name) e1 with
    | .error e => .error e
    | .ok (b2, e2) =>
      match validate_email (getS data.email) e2 with
      | .error e => .error e
      | .ok (b3, e3) =>
        match validate_password (getS data.password) e3 with
        | .error e => .error e
        | .ok (b4, e4) =>
          match validate_password_match (getS data.password)
              (getS data.confirm_password) e4 with
          | .error e => .error e
          | .ok (b5, e5) => .ok (b1 && b2 && b3 && b4 && b5, e5)

/-- Control characters removed by `sanitize_input`: `[\x00-\x1F\x7F]`. -/
def isCtl (c : Char) : Bool :=
  c.toNat ≤ 0x1F || c.toNat = 0x7F

/-- `RegistrationValidator.sanitize_input`: empty in, empty out; otherwise strip
control characters, rejoin the whitespace-split words with single spaces, and
strip the ends. -/
def sanitize_input (value : List Char) : List Char :=
  if value.isEmpty then []
  else pyStrip (joinSp (pySplit (value.filter (fun c => !isCtl c))))

end Server

namespace Forms

/-- Core of `USERNAME_PATTERN = ^[a-zA-Z0-9_]{3,20}$`. -/
def usernameCore (s : List Char) : Bool :=
  decide (3 ≤ s.length) && decide (s.length ≤ 20) &&
  s.all (fun c => c.isAlpha || c.isDigit || c == Char.ofNat 0x5f)

/-- `USERNAME_PATTERN.match` (with the `$`-newline allowance). -/
def usernameMatch (s : List Char) : Bool :=
  dollarMatch usernameCore s

/-- Character class `[a-zA-Z0-9._%+-]` of the local part of `EMAIL_PATTERN`. -/
def emailLocalChar (c : Char) : Bool :=
  c.isAlpha || c.isDigit || c == '.' || c == Char.ofNat 0x5f || c == '%' ||
  c == '+' || c == '-'

/-- Character class `[a-zA-Z0-9.-]` of the domain part of `EMAIL_PATTERN`. -/
def emailDomChar (c : Char) : Bool :=
  c.isAlpha || c.isDigit || c == '.' || c == '-'

/-- After the `@`, `EMAIL_PATTERN` needs `[a-zA-Z0-9.-]+\.[a-zA-Z]{2,}`: a dot at
some position `j ≥ 1` whose prefix is all domain characters and whose suffix is
at least two letters. -/
def emailRestOk (rest : List Char) : Bool :=
  (List.range rest.length).any (fun j =>
    decide (1 ≤ j) && rest.getD j ' ' == '.' &&
    (rest.take j).all emailDomChar &&
    decide (2 ≤ (rest.drop (j + 1)).length) &&
    (rest.drop (j + 1)).all Char.isAlpha)

/-- Core of `EMAIL_PATTERN = ^[a-zA-Z0-9._%+-]+@[a-zA-Z0-9.-]+\.[a-zA-Z]{2,}$`. -/
def emailCore (s : List Char) : Bool :=
  let locpart := s.takeWhile (fun c => c != '@')
  decide (locpart.length < s.length) &&
  !locpart.isEmpty &&
  locpart.all emailLocalChar &&
  emailRestOk (s.drop (locpart.length + 1))

/-- `EMAIL_PATTERN.match` (with the `$`-newline allowance). -/
def emailMatch (s : List Char) : Bool :=
  dollarMatch emailCore s

/-- The special-character set `[!@#$%^&*(),.?":{}|<>]` searched for by
`validate_password`. -/
def formsSpecial (c : Char) : Bool :=
  c == '!' || c == '@' || c == '#' || c == '$' || c == '%' || c == '^' ||
  c == '&' || c == '*' || c == '(' || c == ')' || c == ',' || c == '.' ||
  c == '?' || c == Char.ofNat 0x22 || c == ':' || c == Char.ofNat 0x7b ||
  c == Char.ofNat 0x7d || c == '|' || c == '<' || c == '>'

/-- Character class `[\d\s\-\+\(\)]` of `PHONE_PATTERN`. -/
def phoneChar (c : Char) : Bool :=
  c.isDigit || isPySpace c || c == '-' || c == '+' || c == '(' || c == ')'

/-- Core of `PHONE_PATTERN = ^[\d\s\-\+\(\)]{10,}$`. -/
def phoneCore (s : List Char) : Bool :=
  decide (10 ≤ s.length) && s.all phoneChar

/-- `PHONE_PATTERN.match` (with the `$`-newline allowance). -/
def phoneMatch (s : List Char) : Bool :=
  dollarMatch phoneCore s

/-- `RegistrationForm.validate_username`; `re.match` on a truthy non-string
raises `TypeError`. -/
def validate_username (username : Value) (errs : List String) :
    Except PyError (Bool × List String) :=
  if pyFalsy username then .ok (false, errs ++ ["Username is required"])
  else
    match username with
    | VStr s =>
      if !usernameMatch s then
        .ok (false, errs ++
          ["Username must be 3-20 characters long and contain only " ++
           "letters, numbers, and underscores"])
      else .ok (true, errs)
    | _ => .error .typeError

/-- `RegistrationForm.validate_email`. -/
def validate_email (email : Value) (errs : List String) :
    Except PyError (Bool × List String) :=
  if pyFalsy email then .ok (false, errs ++ ["Email is required"])
  else
    match email with
    | VStr s =>
      if !emailMatch s then .ok (false, errs ++ ["Invalid email format"])
      else .ok (true, errs)
    | _ => .error .typeError

/-- `RegistrationForm.validate_password`: required, minimum length, then one
`re.search` per character class, each check returning at its first failure.
`len()` of a truthy non-string raises `TypeError`. -/
def validate_password (password : Value) (errs : List String) :
    Except PyError (Bool × List String) :=
  if pyFalsy password then .ok (false, errs ++ ["Password is required"])
  else
    match password with
    | VStr s =>
      if decide (s.length < 8) then
        .ok (false, errs ++ ["Password must be at least 8 characters long"])
      else if !s.any Char.isUpper then
        .ok (false, errs ++ ["Password must contain at least one uppercase letter"])
      else if !s.any Char.isLower then
        .ok (false, errs ++ ["Password must contain at least one lowercase letter"])
      else if !s.any Char.isDigit then
        .ok (false, errs ++ ["Password must contain at least one number"])
      else if !s.any formsSpecial then
        .ok (false, errs ++ ["Password must contain at least one special character"])
      else .ok (true, errs)
    | _ => .error .typeError

/-- `RegistrationForm.validate_password_confirmation`. -/
def validate_password_confirmation (password confirm : Value) (errs : List String) :
    Except PyError (Bool × List String) :=
  if pyFalsy confirm then
    .ok (false, errs ++ ["Password confirmation is required"])
  else if password != confirm then
    .ok (false, errs ++ ["Passwords do not match"])
  else .ok (true, errs)

/-- Worker for Python `int(...)` digit parsing: after the first digit, an
underscore is allowed only between digits. `acc` is the value so far. -/
def digitsGo (acc : Nat) : List Char → Option Nat
  | [] => some acc
  | c :: cs =>
    if c.isDigit then digitsGo (acc * 10 + (c.toNat - 48)) cs
    else if c = Char.ofNat 0x5f then
      match cs with
      | d :: cs' =>
        if d.isDigit then digitsGo (acc * 10 + (d.toNat - 48)) cs' else none
      | [] => none
    else none

/-- Digit-sequence parse for Python `int(...)`: non-empty, starts with a digit. -/
def digitsVal : List Char → Option Nat
  | [] => none
  | c :: cs => if c.isDigit then digitsGo (c.toNat - 48) cs else none

/-- Python `int(s)` on a string: strip whitespace, optional sign, digits with
underscores allowed only between digits; `none` models the raised `ValueError`. -/
def pyIntOfStr (s : List Char) : Option Int :=
  match pyStrip s with
  | '+' :: rest => (digitsVal rest).map Int.ofNat
  | '-' :: rest => (digitsVal rest).map (fun n => -(n : Int))
  | rest => (digitsVal rest).map Int.ofNat

/-- Python `int(value)` on a raw value; `none` models a raised
`ValueError`/`TypeError` (both caught by `validate_age`). -/
def pyIntOfValue : Value → Option Int
  | VNum n => some n
  | VStr s => pyIntOfStr s
  | VNone => none

/-- `RegistrationForm.validate_age`: `None` passes; `int(...)` failures are
caught and reported; parsed ages must lie in `[13, 150]`. Never raises. -/
def validate_age (age : Value) (errs : List String) : Bool × List String :=
  match age with
  | VNone => (true, errs)
  | v =>
    match pyIntOfValue v with
    | none => (false, errs ++ ["Age must be a valid number"])
    | some n =>
      if n < 13 then
        (false, errs ++ ["You must be at least 13 years old to register"])
      else if 150 < n then (false, errs ++ ["Please enter a valid age"])
      else (true, errs)

/-- `RegistrationForm.validate_phone`; `re.match` on a truthy non-string raises
`TypeError`. -/
def validate_phone (phone : Value) (errs : List String) :
    Except PyError (Bool × List String) :=
  if pyFalsy phone then .ok (true, errs)
  else
    match phone with
    | VStr s =>
      if !phoneMatch s then .ok (false, errs ++ ["Invalid phone number format"])
      else .ok (true, errs)
    | _ => .error .typeError

/-- The input map of `RegistrationForm.validate`. -/
structure FormData where
  username : Option Value
  email : Option Value
  password : Option Value
  confirm_password : Option Value
  age : Option Value
  phone : Option Value
deriving DecidableEq

/-- `form_data.get(key, '')`. -/
def getS (v : Option Value) : Value :=
  v.getD (VStr [])

/-- `form_data.get(key)` (default `None`). -/
def getN (v : Option Value) : Value :=
  v.getD VNone

/-- `RegistrationForm.validate`: resets the error list, runs the six field
validators in order, and conjoins their verdicts. -/
def validate (fd : FormData) (_initErrs : List String) :
    Except PyError (Bool × List String) :=
  match validate_username (getS fd.username) [] with
  | .error e => .error e
  | .ok (b1, e1) =>
    match validate_email (getS fd.email) e1 with
    | .error e => .error e
    | .ok (b2, e2) =>
      match validate_password (getS fd.password) e2 with
      | .error e => .error e
      | .ok (b3, e3) =>
        match validate_password_confirmation (getS fd.password)
            (getS fd.confirm_password) e3 with
        | .error e => .error e
        | .ok (b4, e4) =>
          match validate_age (getN fd.age) e4 with
          | (b5, e5) =>
            match validate_phone (getN fd.phone) e5 with
            | .error e => .error e
            | .ok (b6, e6) => .ok (b1 && b2 && b3 && b4 && b5 && b6, e6)

end Forms

/-- Step shape of a server field validator: success leaves the error map
unchanged, failure writes exactly one key. -/
def SOk (e : FieldErrors) (b : Bool) (e' : FieldErrors) : Prop :=
  (b = true → e' = e) ∧ (b = false → ∃ k m, e' = setError e k m)

/-- Step shape of a forms field validator: success leaves the error list
unchanged, failure appends exactly one message. -/
def FOk (e : List String) (b : Bool) (e' : List String) : Prop :=
  (b = true → e' = e) ∧ (b = false → ∃ m, e' = e ++ [m])

/-- Step shape of a server field validator that writes only the key `key`:
success leaves the error map unchanged, failure writes exactly one message
under `key`. -/
def SOkKey (key : String) (e : FieldErrors) (b : Bool) (e' : FieldErrors) : Prop :=
  (b = true → e' = e) ∧ (b = false → ∃ m, e' = setError e key m)

/-- A raw value that is a string or `None` (not a number). -/
def strOrNoneV : Value → Bool
  | Value.VStr _ => true
  | Value.VNone => true
  | Value.VNum _ => false

/-- An optional map entry that is absent, a string, or `None`. -/
def strOrNoneO : Option Value → Bool
  | none => true
  | some v => strOrNoneV v

/-- All values of a server input map are strings or `None`. -/
def strInputs (d : Server.RegData) : Bool :=
  strOrNoneO d.first_name && strOrNoneO d.last_name && strOrNoneO d.email &&
  strOrNoneO d.password && strOrNoneO d.confirm_password

/-- All values of a forms input map are strings or `None`. -/
def strInputsF (fd : Forms.FormData) : Bool :=
  strOrNoneO fd.username && strOrNoneO fd.email && strOrNoneO fd.password &&
  strOrNoneO fd.confirm_password && strOrNoneO fd.age && strOrNoneO fd.phone

/-- Modelled from the spec's sanitization sentence: strip control characters,
collapse internal whitespace runs to single spaces, and trim leading/trailing
whitespace (collapsing plus trimming is exactly rejoining the whitespace-split
words with single spaces). -/
def specSanitize (value : List Char) : List Char :=
  joinSp (pySplit (value.filter (fun c => !Server.isCtl c)))

theorem setError_ne_nil (e : FieldErrors) (k m : String) : setError e k m ≠ [] := by
  cases e with
  | nil => simp [setError]
  | cons p rest =>
    cases p with
    | mk k' m' =>
      simp only [setError]
      split <;> simp

theorem SOk.ofTrueS {e : FieldErrors} : SOk e true e :=
  ⟨fun _ => rfl, by simp⟩

theorem SOk.ofFalseS {e : FieldErrors} {k m : String} : SOk e false (setError e k m) :=
  ⟨by simp, fun _ => ⟨k, m, rfl⟩⟩

theorem SOk.castS {e E e' : FieldErrors} {c b : Bool}
    (h : (Except.ok (c, E) : Except PyError (Bool × FieldErrors)) = .ok (b, e'))
    (s : SOk e c E) : SOk e b e' := by
  simp only [Except.ok.injEq, Prod.mk.injEq] at h
  obtain ⟨hb, he⟩ := h
  subst hb; subst he
  exact s

theorem FOk.ofTrueF {e : List String} : FOk e true e :=
  ⟨fun _ => rfl, by simp⟩

theorem FOk.ofFalseF {e : List String} {m : String} : FOk e false (e ++ [m]) :=
  ⟨by simp, fun _ => ⟨m, rfl⟩⟩

theorem FOk.castF {e E e' : List String} {c b : Bool}
    (h : (Except.ok (c, E) : Except PyError (Bool × List String)) = .ok (b, e'))
    (s : FOk e c E) : FOk e b e' := by
  simp only [Except.ok.injEq, Prod.mk.injEq] at h
  obtain ⟨hb, he⟩ := h
  subst hb; subst he
  exact s

theorem Server.validate_required_sok {f : String} {v : Value} {e : FieldErrors}
    {b : Bool} {e' : FieldErrors}
    (h : Server.validate_required f v e = .ok (b, e')) : SOk e b e' := by
  rcases v with s | n | _ <;> simp only [Server.validate_required] at h
  · split at h
    · exact SOk.castS h SOk.ofFalseS
    · exact SOk.castS h SOk.ofTrueS
  · split at h
    · exact SOk.castS h SOk.ofFalseS
    · exact Except.noConfusion h
  · exact SOk.castS h SOk.ofFalseS

theorem Server.validate_email_sok {v : Value} {e : FieldErrors}
    {b : Bool} {e' : FieldErrors}
    (h : Server.validate_email v e = .ok (b, e')) : SOk e b e' := by
  simp only [Server.validate_email] at h
  split at h
  · exact Except.noConfusion h
  · next errs1 heq =>
    rcases (Server.validate_required_sok heq).2 rfl with ⟨k, m, hm⟩
    subst hm
    exact SOk.castS h SOk.ofFalseS
  · next errs1 heq =>
    have he1 : errs1 = e := (Server.validate_required_sok heq).1 rfl
    subst he1
    split at h
    · split at h
      · exact SOk.castS h SOk.ofFalseS
      · split at h
        · exact SOk.castS h SOk.ofFalseS
        · exact SOk.castS h SOk.ofTrueS
    · exact Except.noConfusion h

theorem Server.validate_password_sok {v : Value} {e : FieldErrors}
    {b : Bool} {e' : FieldErrors}
    (h : Server.validate_password v e = .ok (b, e')) : SOk e b e' := by
  simp only [Server.validate_password] at h
  split at h
  · exact Except.noConfusion h
  · next errs1 heq =>
    rcases (Server.validate_required_sok heq).2 rfl with ⟨k, m, hm⟩
    subst hm
    exact SOk.castS h SOk.ofFalseS
  · next errs1 heq =>
    have he1 : errs1 = e := (Server.validate_required_sok heq).1 rfl
    subst he1
    split at h
    · split at h
      · exact SOk.castS h SOk.ofFalseS
      · split at h
        · exact SOk.castS h SOk.ofFalseS
        · split at h
          · exact SOk.castS h SOk.ofFalseS
          · exact SOk.castS h SOk.ofTrueS
    · exact Except.noConfusion h

theorem Server.validate_password_match_sok {p v : Value} {e : FieldErrors}
    {b : Bool} {e' : FieldErrors}
    (h : Server.validate_password_match p v e = .ok (b, e')) : SOk e b e' := by
  simp only [Server.validate_password_match] at h
  split at h
  · exact Except.noConfusion h
  · next errs1 heq =>
    rcases (Server.validate_required_sok heq).2 rfl with ⟨k, m, hm⟩
    subst hm
    exact SOk.castS h SOk.ofFalseS
  · next errs1 heq =>
    have he1 : errs1 = e := (Server.validate_required_sok heq).1 rfl
    subst he1
    split at h
    · exact SOk.castS h SOk.ofFalseS
    · exact SOk.castS h SOk.ofTrueS

theorem Server.validate_name_sok {f : String} {v : Value} {e : FieldErrors}
    {b : Bool} {e' : FieldErrors}
    (h : Server.validate_name f v e = .ok (b, e')) : SOk e b e' := by
  simp only [Server.validate_name] at h
  split at h
  · exact Except.noConfusion h
  · next errs1 heq =>
    rcases (Server.validate_required_sok heq).2 rfl with ⟨k, m, hm⟩
    subst hm
    exact SOk.castS h SOk.ofFalseS
  · next errs1 heq =>
    have he1 : errs1 = e := (Server.validate_required_sok heq).1 rfl
    subst he1
    split at h
    · split at h
      · exact SOk.castS h SOk.ofFalseS
      · split at h
        · exact SOk.castS h SOk.ofFalseS
        · split at h
          · exact SOk.castS h SOk.ofFalseS
          · exact SOk.castS h SOk.ofTrueS
    · exact Except.noConfusion h

theorem Forms.validate_username_fok {v : Value} {e : List String}
    {b : Bool} {e' : List String}
    (h : Forms.validate_username v e = .ok (b, e')) : FOk e b e' := by
  simp only [Forms.validate_username] at h
  repeat'
    first
    | exact Except.noConfusion h
    | exact FOk.castF h FOk.ofFalseF
    | exact FOk.castF h FOk.ofTrueF
    | split at h

theorem Forms.validate_email_fok {v : Value} {e : List String}
    {b : Bool} {e' : List String}
    (h : Forms.validate_email v e = .ok (b, e')) : FOk e b e' := by
  simp only [Forms.validate_email] at h
  repeat'
    first
    | exact Except.noConfusion h
    | exact FOk.castF h FOk.ofFalseF
    | exact FOk.castF h FOk.ofTrueF
    | split at h

theorem Forms.validate_password_fok {v : Value} {e : List String}
    {b : Bool} {e' : List String}
    (h : Forms.validate_password v e = .ok (b, e')) : FOk e b e' := by
  simp only [Forms.validate_password] at h
  repeat'
    first
    | exact Except.noConfusion h
    | exact FOk.castF h FOk.ofFalseF
    | exact FOk.castF h FOk.ofTrueF
    | split at h

theorem Forms.validate_password_confirmation_fok {p v : Value} {e : List String}
    {b : Bool} {e' : List String}
    (h : Forms.validate_password_confirmation p v e = .ok (b, e')) : FOk e b e' := by
  simp only [Forms.validate_password_confirmation] at h
  repeat'
    first
    | exact Except.noConfusion h
    | exact FOk.castF h FOk.ofFalseF
    | exact FOk.castF h FOk.ofTrueF
    | split at h

theorem Forms.validate_age_fok {v : Value} {e : List String}
    {b : Bool} {e' : List String}
    (h : Forms.validate_age v e = (b, e')) : FOk e b e' := by
  simp only [Forms.validate_age] at h
  repeat'
    first
    | (obtain ⟨hb, he⟩ := Prod.mk.injEq .. ▸ h; subst hb; subst he;
        exact FOk.ofFalseF)
    | (obtain ⟨hb, he⟩ := Prod.mk.injEq .. ▸ h; subst hb; subst he;
        exact FOk.ofTrueF)
    | split at h

theorem Forms.validate_phone_fok {v : Value} {e : List String}
    {b : Bool} {e' : List String}
    (h : Forms.validate_phone v e = .ok (b, e')) : FOk e b e' := by
  simp only [Forms.validate_phone] at h
  repeat'
    first
    | exact Except.noConfusion h
    | exact FOk.castF h FOk.ofFalseF
    | exact FOk.castF h FOk.ofTrueF
    | split at h

theorem splitAux_append_word (w : List Char) (cs acc : List Char)
    (hw : ∀ c ∈ w, isPySpace c = false) :
    splitAux (w ++ cs) acc = splitAux cs (w.reverse ++ acc) := by
  induction w generalizing acc with
  | nil => simp
  | cons c w ih =>
    simp only [List.cons_append, splitAux]
    rw [hw c (by simp)]
    simp only [Bool.false_eq_true, if_false, List.append_eq]
    rw [ih _ (fun x hx => hw x (by simp [hx]))]
    simp

theorem splitAux_words (s : List Char) (acc : List Char)
    (hacc : ∀ c ∈ acc, isPySpace c = false) :
    ∀ w ∈ splitAux s acc, w ≠ [] ∧ ∀ c ∈ w, isPySpace c = false := by
  induction s generalizing acc with
  | nil =>
    intro w hw
    simp only [splitAux] at hw
    split at hw
    · simp at hw
    · next hne =>
      simp only [List.mem_singleton] at hw
      subst hw
      refine ⟨by simpa using hne, ?_⟩
      intro c hc
      exact hacc c (by simpa using hc)
  | cons c cs ih =>
    intro w hw
    simp only [splitAux] at hw
    split at hw
    · split at hw
      · exact ih [] (by simp) w hw
      · rcases List.mem_cons.mp hw with hw | hw
        · subst hw
          next hne =>
            refine ⟨by simpa using hne, ?_⟩
            intro x hx
            exact hacc x (by simpa using hx)
        · exact ih [] (by simp) w hw
    · next hc =>
      refine ih (c :: acc) ?_ w hw
      intro x hx
      rcases List.mem_cons.mp hx with rfl | hx
      · simpa using hc
      · exact hacc x hx

theorem joinSp_cons_cons (w w' : List Char) (t : List (List Char)) :
    joinSp (w :: w' :: t) = w ++ ' ' :: joinSp (w' :: t) := rfl

theorem pySplit_joinSp (ws : List (List Char))
    (h : ∀ w ∈ ws, w ≠ [] ∧ ∀ c ∈ w, isPySpace c = false) :
    pySplit (joinSp ws) = ws := by
  induction ws with
  | nil => rfl
  | cons w t ih =>
    obtain ⟨hne, hw⟩ := h w (by simp)
    cases t with
    | nil =>
      show splitAux (joinSp [w]) [] = [w]
      have : joinSp [w] = w ++ [] := by simp [joinSp]
      rw [this, splitAux_append_word w [] [] hw]
      simp only [splitAux, List.append_nil, List.isEmpty_eq_true,
        List.reverse_eq_nil_iff]
      rw [if_neg hne]
      simp
    | cons w' t' =>
      show splitAux (joinSp (w :: w' :: t')) [] = w :: w' :: t'
      rw [joinSp_cons_cons, splitAux_append_word w _ [] hw]
      simp only [splitAux, List.append_nil]
      rw [if_pos (by simp [isPySpace])]
      rw [if_neg (by simp [hne])]
      rw [show splitAux (joinSp (w' :: t')) [] = pySplit (joinSp (w' :: t')) from rfl]
      rw [ih (fun x hx => h x (by simp [hx]))]
      simp

theorem dropWhile_eq_self_of_head (l : List Char)
    (h : ∀ c ∈ l.head?, isPySpace c = false) : l.dropWhile isPySpace = l := by
  cases l with
  | nil => rfl
  | cons c cs =>
    have := h c (by simp)
    simp [List.dropWhile, this]

theorem joinSp_ne_nil (w : List Char) (t : List (List Char)) (hne : w ≠ []) :
    joinSp (w :: t) ≠ [] := by
  cases t with
  | nil => simpa [joinSp] using hne
  | cons w' t' =>
    rw [joinSp_cons_cons]
    simp

theorem joinSp_head_nonspace (ws : List (List Char))
    (h : ∀ w ∈ ws, w ≠ [] ∧ ∀ c ∈ w, isPySpace c = false) :
    ∀ c ∈ (joinSp ws).head?, isPySpace c = false := by
  cases ws with
  | nil => simp [joinSp]
  | cons w t =>
    obtain ⟨hne, hw⟩ := h w (by simp)
    intro c hc
    have hh : (joinSp (w :: t)).head? = w.head? := by
      cases t with
      | nil => simp [joinSp]
      | cons w' t' =>
        rw [joinSp_cons_cons]
        exact List.head?_append_of_ne_nil _ hne
    rw [hh] at hc
    exact hw c (List.mem_of_mem_head? hc)

theorem joinSp_getLast_nonspace (ws : List (List Char))
    (h : ∀ w ∈ ws, w ≠ [] ∧ ∀ c ∈ w, isPySpace c = false) :
    ∀ c ∈ (joinSp ws).getLast?, isPySpace c = false := by
  induction ws with
  | nil => simp [joinSp]
  | cons w t ih =>
    obtain ⟨hne, hw⟩ := h w (by simp)
    cases t with
    | nil =>
      intro c hc
      exact hw c (List.mem_of_mem_getLast? (by simpa [joinSp] using hc))
    | cons w' t' =>
      intro c hc
      rw [joinSp_cons_cons, List.getLast?_append_cons] at hc
      have hne' : joinSp (w' :: t') ≠ [] :=
        joinSp_ne_nil w' t' (h w' (by simp)).1
      have : (' ' :: joinSp (w' :: t')).getLast? = (joinSp (w' :: t')).getLast? := by
        cases hj : joinSp (w' :: t') with
        | nil => exact absurd hj hne'
        | cons x xs => simp
      rw [this] at hc
      exact ih (fun x hx => h x (by simp [hx])) c hc

theorem pyStrip_eq_self (l : List Char)
    (h1 : ∀ c ∈ l.head?, isPySpace c = false)
    (h2 : ∀ c ∈ l.getLast?, isPySpace c = false) : pyStrip l = l := by
  unfold pyStrip
  rw [dropWhile_eq_self_of_head l h1]
  rw [dropWhile_eq_self_of_head l.reverse (by
    intro c hc
    rw [List.head?_reverse] at hc
    exact h2 c hc)]
  exact List.reverse_reverse l

theorem splitAux_chars (s : List Char) (acc : List Char) :
    ∀ w ∈ splitAux s acc, ∀ c ∈ w, c ∈ s ∨ c ∈ acc := by
  induction s generalizing acc with
  | nil =>
    intro w hw c hc
    simp only [splitAux] at hw
    split at hw
    · simp at hw
    · simp only [List.mem_singleton] at hw
      subst hw
      exact Or.inr (by simpa using hc)
  | cons a cs ih =>
    intro w hw c hc
    simp only [splitAux] at hw
    split at hw
    · split at hw
      · rcases ih [] w hw c hc with h | h
        · exact Or.inl (by simp [h])
        · simp at h
      · rcases List.mem_cons.mp hw with rfl | hw2
        · exact Or.inr (by simpa using hc)
        · rcases ih [] w hw2 c hc with h | h
          · exact Or.inl (by simp [h])
          · simp at h
    · rcases ih (a :: acc) w hw c hc with h | h
      · exact Or.inl (by simp [h])
      · rcases List.mem_cons.mp h with rfl | h2
        · exact Or.inl (by simp)
        · exact Or.inr h2

theorem joinSp_chars (ws : List (List Char)) :
    ∀ c ∈ joinSp ws, (∃ w ∈ ws, c ∈ w) ∨ c = ' ' := by
  induction ws with
  | nil => simp [joinSp]
  | cons w t ih =>
    intro c hc
    cases t with
    | nil =>
      exact Or.inl ⟨w, by simp, by simpa [joinSp] using hc⟩
    | cons w' t' =>
      rw [joinSp_cons_cons] at hc
      rcases List.mem_append.mp hc with h | h
      · exact Or.inl ⟨w, by simp, h⟩
      · rcases List.mem_cons.mp h with rfl | h2
        · exact Or.inr rfl
        · rcases ih c h2 with ⟨w2, hw2, hcw⟩ | h3
          · exact Or.inl ⟨w2, by simp [hw2], hcw⟩
          · exact Or.inr h3

theorem sanitize_strip_redundant (s : List Char) :
    pyStrip (joinSp (pySplit s)) = joinSp (pySplit s) := by
  have hws := splitAux_words s [] (by simp)
  exact pyStrip_eq_self _ (joinSp_head_nonspace _ hws) (joinSp_getLast_nonspace _ hws)

theorem sanitize_eq_spec (v : List Char) :
    Server.sanitize_input v = specSanitize v := by
  unfold Server.sanitize_input specSanitize
  split
  · next hv =>
    simp only [List.isEmpty_eq_true] at hv
    subst hv
    rfl
  · exact sanitize_strip_redundant _

theorem sanitize_idem (v : List Char) :
    Server.sanitize_input (Server.sanitize_input v) = Server.sanitize_input v := by
  by_cases hv : v.isEmpty
  · simp only [List.isEmpty_eq_true] at hv
    subst hv
    rfl
  · have hout : Server.sanitize_input v =
        joinSp (pySplit (v.filter (fun c => !Server.isCtl c))) := by
      unfold Server.sanitize_input
      rw [if_neg hv]
      exact sanitize_strip_redundant _
    set s0 := v.filter (fun c => !Server.isCtl c) with hs0
    have hws := splitAux_words s0 [] (by simp)
    have hchars : ∀ c ∈ joinSp (pySplit s0), (!Server.isCtl c) = true := by
      intro c hc
      rcases joinSp_chars _ c hc with ⟨w, hw, hcw⟩ | rfl
      · rcases splitAux_chars s0 [] w hw c hcw with h | h
        · have h2 : c ∈ v.filter (fun c => !Server.isCtl c) := hs0 ▸ h
          exact (List.mem_filter.mp h2).2
        · simp at h
      · simp [Server.isCtl]
    rw [hout]
    by_cases hout0 : (joinSp (pySplit s0)).isEmpty
    · simp only [List.isEmpty_eq_true] at hout0
      rw [hout0]
      rfl
    · unfold Server.sanitize_input
      rw [if_neg hout0]
      rw [List.filter_eq_self.mpr hchars]
      rw [show pySplit (joinSp (pySplit s0)) = pySplit s0 from
        pySplit_joinSp _ hws]
      exact sanitize_strip_redundant _

theorem SOk.stepS {e e' : FieldErrors} {bacc b : Bool}
    (K : (bacc = true ∧ e = []) ∨ (bacc = false ∧ e ≠ []))
    (s : SOk e b e') :
    ((bacc && b) = true ∧ e' = []) ∨ ((bacc && b) = false ∧ e' ≠ []) := by
  rcases K with ⟨hb, he⟩ | ⟨hb, he⟩ <;> subst hb <;> cases b
  · rcases s.2 rfl with ⟨k, m, hm⟩
    exact Or.inr ⟨by simp, hm ▸ setError_ne_nil e k m⟩
  · exact Or.inl ⟨by simp, (s.1 rfl).trans he⟩
  · rcases s.2 rfl with ⟨k, m, hm⟩
    exact Or.inr ⟨by simp, hm ▸ setError_ne_nil e k m⟩
  · exact Or.inr ⟨by simp, (s.1 rfl) ▸ he⟩

theorem FOk.stepF {e e' : List String} {bacc b : Bool}
    (K : (bacc = true ∧ e = []) ∨ (bacc = false ∧ e ≠ []))
    (s : FOk e b e') :
    ((bacc && b) = true ∧ e' = []) ∨ ((bacc && b) = false ∧ e' ≠ []) := by
  rcases K with ⟨hb, he⟩ | ⟨hb, he⟩ <;> subst hb <;> cases b
  · rcases s.2 rfl with ⟨m, hm⟩
    exact Or.inr ⟨by simp, by simp [hm]⟩
  · exact Or.inl ⟨by simp, (s.1 rfl).trans he⟩
  · rcases s.2 rfl with ⟨m, hm⟩
    exact Or.inr ⟨by simp, by simp [hm]⟩
  · exact Or.inr ⟨by simp, (s.1 rfl) ▸ he⟩

theorem Server.validate_registration_flag {d : Server.RegData} {e0 : FieldErrors}
    {b : Bool} {errs : FieldErrors}
    (h : Server.validate_registration d e0 = .ok (b, errs)) : b = errs.isEmpty := by
  simp only [Server.validate_registration] at h
  split at h
  · exact Except.noConfusion h
  next b1 e1 h1 =>
  split at h
  · exact Except.noConfusion h
  next b2 e2 h2 =>
  split at h
  · exact Except.noConfusion h
  next b3 e3 h3 =>
  split at h
  · exact Except.noConfusion h
  next b4 e4 h4 =>
  split at h
  · exact Except.noConfusion h
  next b5 e5 h5 =>
  simp only [Except.ok.injEq, Prod.mk.injEq] at h
  obtain ⟨hb, he⟩ := h
  subst hb; subst he
  have K1 : (b1 = true ∧ e1 = []) ∨ (b1 = false ∧ e1 ≠ []) := by
    simpa using SOk.stepS (Or.inl ⟨rfl, rfl⟩) (Server.validate_name_sok h1)
  have K2 := SOk.stepS K1 (Server.validate_name_sok h2)
  have K3 := SOk.stepS K2 (Server.validate_email_sok h3)
  have K4 := SOk.stepS K3 (Server.validate_password_sok h4)
  have K5 := SOk.stepS K4 (Server.validate_password_match_sok h5)
  rcases K5 with ⟨hB, hE⟩ | ⟨hB, hE⟩
  · rw [hB, hE]
    rfl
  · rw [hB]
    cases hE5 : e5 with
    | nil => exact absurd hE5 hE
    | cons x xs => rfl

theorem Forms.validate_flag {fd : Forms.FormData} {e0 : List String}
    {b : Bool} {errs : List String}
    (h : Forms.validate fd e0 = .ok (b, errs)) : b = errs.isEmpty := by
  simp only [Forms.validate] at h
  split at h
  · exact Except.noConfusion h
  next b1 e1 h1 =>
  split at h
  · exact Except.noConfusion h
  next b2 e2 h2 =>
  split at h
  · exact Except.noConfusion h
  next b3 e3 h3 =>
  split at h
  · exact Except.noConfusion h
  next b4 e4 h4 =>
  rcases hage : Forms.validate_age (Forms.getN fd.age) e4 with ⟨b5, e5⟩
  rw [hage] at h
  split at h
  · exact Except.noConfusion h
  next b6 e6 h6 =>
  simp only [Except.ok.injEq, Prod.mk.injEq] at h
  obtain ⟨hb, he⟩ := h
  subst hb; subst he
  have K1 : (b1 = true ∧ e1 = []) ∨ (b1 = false ∧ e1 ≠ []) := by
    simpa using FOk.stepF (Or.inl ⟨rfl, rfl⟩) (Forms.validate_username_fok h1)
  have K2 := FOk.stepF K1 (Forms.validate_email_fok h2)
  have K3 := FOk.stepF K2 (Forms.validate_password_fok h3)
  have K4 := FOk.stepF K3 (Forms.validate_password_confirmation_fok h4)
  have K5 := FOk.stepF K4 (Forms.validate_age_fok hage)
  have K6 := FOk.stepF K5 (Forms.validate_phone_fok h6)
  rcases K6 with ⟨hB, hE⟩ | ⟨hB, hE⟩
  · rw [hB, hE]
    rfl
  · rw [hB]
    cases hE6 : e6 with
    | nil => exact absurd hE6 hE
    | cons x xs => rfl

theorem Server.validate_required_no_raise {f : String} {v : Value} {e : FieldErrors}
    (hv : strOrNoneV v = true) :
    ∃ r, Server.validate_required f v e = .ok r := by
  rcases v with s | n | _
  · simp only [Server.validate_required]
    repeat' first | exact ⟨_, rfl⟩ | split
  · simp [strOrNoneV] at hv
  · exact ⟨_, rfl⟩

theorem Server.validate_email_no_raise {v : Value} {e : FieldErrors}
    (hv : strOrNoneV v = true) :
    ∃ r, Server.validate_email v e = .ok r := by
  rcases v with s | n | _
  · obtain ⟨r, hr⟩ := Server.validate_required_no_raise (f := "email")
      (v := VStr s) (e := e) rfl
    unfold Server.validate_email
    split
    · next herr => rw [hr] at herr; exact Except.noConfusion herr
    · exact ⟨_, rfl⟩
    · dsimp only
      repeat' first | exact ⟨_, rfl⟩ | split
  · simp [strOrNoneV] at hv
  · exact ⟨_, rfl⟩

theorem Server.validate_password_no_raise {v : Value} {e : FieldErrors}
    (hv : strOrNoneV v = true) :
    ∃ r, Server.validate_password v e = .ok r := by
  rcases v with s | n | _
  · obtain ⟨r, hr⟩ := Server.validate_required_no_raise (f := "password")
      (v := VStr s) (e := e) rfl
    unfold Server.validate_password
    split
    · next herr => rw [hr] at herr; exact Except.noConfusion herr
    · exact ⟨_, rfl⟩
    · dsimp only
      repeat' first | exact ⟨_, rfl⟩ | split
  · simp [strOrNoneV] at hv
  · exact ⟨_, rfl⟩

theorem Server.validate_password_match_no_raise {p v : Value} {e : FieldErrors}
    (hv : strOrNoneV v = true) :
    ∃ r, Server.validate_password_match p v e = .ok r := by
  rcases v with s | n | _
  · obtain ⟨r, hr⟩ := Server.validate_required_no_raise (f := "confirm_password")
      (v := VStr s) (e := e) rfl
    unfold Server.validate_password_match
    split
    · next herr => rw [hr] at herr; exact Except.noConfusion herr
    · exact ⟨_, rfl⟩
    · repeat' first | exact ⟨_, rfl⟩ | split
  · simp [strOrNoneV] at hv
  · exact ⟨_, rfl⟩

theorem Server.validate_name_no_raise {f : String} {v : Value} {e : FieldErrors}
    (hv : strOrNoneV v = true) :
    ∃ r, Server.validate_name f v e = .ok r := by
  rcases v with s | n | _
  · obtain ⟨r, hr⟩ := Server.validate_required_no_raise (f := f)
      (v := VStr s) (e := e) rfl
    unfold Server.validate_name
    split
    · next herr => rw [hr] at herr; exact Except.noConfusion herr
    · exact ⟨_, rfl⟩
    · dsimp only
      repeat' first | exact ⟨_, rfl⟩ | split
  · simp [strOrNoneV] at hv
  · exact ⟨_, rfl⟩

theorem strOrNone_getS {o : Option Value} (h : strOrNoneO o = true) :
    strOrNoneV (Server.getS o) = true := by
  rcases o with _ | v
  · rfl
  · exact h

theorem Server.validate_registration_no_raise {d : Server.RegData} {e0 : FieldErrors}
    (hd : strInputs d = true) :
    ∃ r, Server.validate_registration d e0 = .ok r := by
  simp only [strInputs, Bool.and_eq_true] at hd
  obtain ⟨⟨⟨⟨h1, h2⟩, h3⟩, h4⟩, h5⟩ := hd
  obtain ⟨⟨b1, e1⟩, hr1⟩ := Server.validate_name_no_raise
    (f := "first_name") (e := []) (strOrNone_getS h1)
  obtain ⟨⟨b2, e2⟩, hr2⟩ := Server.validate_name_no_raise
    (f := "last_name") (e := e1) (strOrNone_getS h2)
  obtain ⟨⟨b3, e3⟩, hr3⟩ := Server.validate_email_no_raise
    (e := e2) (strOrNone_getS h3)
  obtain ⟨⟨b4, e4⟩, hr4⟩ := Server.validate_password_no_raise
    (e := e3) (strOrNone_getS h4)
  obtain ⟨⟨b5, e5⟩, hr5⟩ := Server.validate_password_match_no_raise
    (p := Server.getS d.password) (e := e4) (strOrNone_getS h5)
  refine ⟨(b1 && b2 && b3 && b4 && b5, e5), ?_⟩
  simp only [Server.validate_registration, hr1, hr2, hr3, hr4, hr5]

theorem Forms.validate_username_no_raise {v : Value} {e : List String}
    (hv : strOrNoneV v = true) :
    ∃ r, Forms.validate_username v e = .ok r := by
  rcases v with s | n | _
  · simp only [Forms.validate_username]
    repeat' first | exact ⟨_, rfl⟩ | split
  · simp [strOrNoneV] at hv
  · exact ⟨_, rfl⟩

theorem Forms.validate_email_no_raiseF {v : Value} {e : List String}
    (hv : strOrNoneV v = true) :
    ∃ r, Forms.validate_email v e = .ok r := by
  rcases v with s | n | _
  · simp only [Forms.validate_email]
    repeat' first | exact ⟨_, rfl⟩ | split
  · simp [strOrNoneV] at hv
  · exact ⟨_, rfl⟩

theorem Forms.validate_password_no_raiseF {v : Value} {e : List String}
    (hv : strOrNoneV v = true) :
    ∃ r, Forms.validate_password v e = .ok r := by
  rcases v with s | n | _
  · simp only [Forms.validate_password]
    repeat' first | exact ⟨_, rfl⟩ | split
  · simp [strOrNoneV] at hv
  · exact ⟨_, rfl⟩

theorem Forms.validate_password_confirmation_no_raise {p v : Value} {e : List String} :
    ∃ r, Forms.validate_password_confirmation p v e = .ok r := by
  simp only [Forms.validate_password_confirmation]
  repeat' first | exact ⟨_, rfl⟩ | split

theorem Forms.validate_phone_no_raise {v : Value} {e : List String}
    (hv : strOrNoneV v = true) :
    ∃ r, Forms.validate_phone v e = .ok r := by
  rcases v with s | n | _
  · simp only [Forms.validate_phone]
    repeat' first | exact ⟨_, rfl⟩ | split
  · simp [strOrNoneV] at hv
  · exact ⟨_, rfl⟩

theorem strOrNone_getSF {o : Option Value} (h : strOrNoneO o = true) :
    strOrNoneV (Forms.getS o) = true := by
  rcases o with _ | v
  · rfl
  · exact h

theorem strOrNone_getN {o : Option Value} (h : strOrNoneO o = true) :
    strOrNoneV (Forms.getN o) = true := by
  rcases o with _ | v
  · rfl
  · exact h

theorem Forms.validate_no_raise {fd : Forms.FormData} {e0 : List String}
    (hd : strInputsF fd = true) :
    ∃ r, Forms.validate fd e0 = .ok r := by
  simp only [strInputsF, Bool.and_eq_true] at hd
  obtain ⟨⟨⟨⟨⟨h1, h2⟩, h3⟩, h4⟩, h5⟩, h6⟩ := hd
  obtain ⟨⟨b1, e1⟩, hr1⟩ := Forms.validate_username_no_raise
    (e := []) (strOrNone_getSF h1)
  obtain ⟨⟨b2, e2⟩, hr2⟩ := Forms.validate_email_no_raiseF
    (e := e1) (strOrNone_getSF h2)
  obtain ⟨⟨b3, e3⟩, hr3⟩ := Forms.validate_password_no_raiseF
    (e := e2) (strOrNone_getSF h3)
  obtain ⟨⟨b4, e4⟩, hr4⟩ := Forms.validate_password_confirmation_no_raise
    (p := Forms.getS fd.password) (v := Forms.getS fd.confirm_password) (e := e3)
  rcases hage : Forms.validate_age (Forms.getN fd.age) e4 with ⟨b5, e5⟩
  obtain ⟨⟨b6, e6⟩, hr6⟩ := Forms.validate_phone_no_raise
    (e := e5) (strOrNone_getN h6)
  refine ⟨(b1 && b2 && b3 && b4 && b5 && b6, e6), ?_⟩
  simp only [Forms.validate, hr1, hr2, hr3, hr4, hage, hr6]

theorem Server.validate_password_accepts {s : List Char} {e e' : FieldErrors}
    (h : Server.validate_password (VStr s) e = .ok (true, e')) :
    8 ≤ s.length ∧ s.length ≤ 128 ∧ Server.passwordMatch s = true := by
  simp only [Server.validate_password] at h
  split at h
  · exact Except.noConfusion h
  · simp at h
  · split at h
    · simp at h
    next h8 =>
      split at h
      · simp at h
      next h128 =>
        split at h
        · simp at h
        next hm =>
          simp only [decide_eq_true_eq] at h8 h128
          exact ⟨by omega, by omega, by simpa using hm⟩

theorem Server.validate_email_accepts {s : List Char} {e e' : FieldErrors}
    (h : Server.validate_email (VStr s) e = .ok (true, e')) :
    Server.emailMatch s = true ∧ s.length ≤ 254 := by
  simp only [Server.validate_email] at h
  split at h
  · exact Except.noConfusion h
  · simp at h
  · split at h
    · simp at h
    next hm =>
      split at h
      · simp at h
      next hlen =>
        simp only [decide_eq_true_eq] at hlen
        exact ⟨by simpa using hm, by omega⟩

theorem Forms.validate_password_acceptsF {s : List Char} {e e' : List String}
    (h : Forms.validate_password (VStr s) e = .ok (true, e')) : 8 ≤ s.length := by
  simp only [Forms.validate_password] at h
  split at h
  · simp at h
  · split at h
    · simp at h
    next h8 =>
      simp only [decide_eq_true_eq] at h8
      omega

theorem Forms.validate_email_acceptsF {s : List Char} {e e' : List String}
    (h : Forms.validate_email (VStr s) e = .ok (true, e')) :
    Forms.emailMatch s = true := by
  simp only [Forms.validate_email] at h
  split at h
  · simp at h
  · split at h
    · simp at h
    next hm =>
      simpa using hm

theorem dropWhile_nil_all {p : Char → Bool} {l : List Char}
    (h : l.dropWhile p = []) : ∀ x ∈ l, p x = true := by
  induction l with
  | nil => simp
  | cons a t ih =>
    intro x hx
    rw [List.dropWhile_cons] at h
    split at h
    · next hpa =>
      rcases List.mem_cons.mp hx with rfl | hx2
      · exact hpa
      · exact ih h x hx2
    · exact absurd h (by simp)

theorem pyStrip_ne_nil {s : List Char} {c : Char} (hc : c ∈ s)
    (hns : isPySpace c = false) : pyStrip s ≠ [] := by
  intro h
  unfold pyStrip at h
  rw [List.reverse_eq_nil_iff] at h
  have h2 := dropWhile_nil_all h
  have hc2 : c ∈ s.dropWhile isPySpace := by
    have hsplit : c ∈ s.takeWhile isPySpace ++ s.dropWhile isPySpace := by
      rw [List.takeWhile_append_dropWhile]
      exact hc
    rcases List.mem_append.mp hsplit with h3 | h3
    · exact absurd (List.mem_takeWhile_imp h3) (by simp [hns])
    · exact h3
  have := h2 c (by simpa using hc2)
  simp [hns] at this

theorem Server.emailCore_nonspace_mem {s : List Char}
    (h : Server.emailCore s = true) : ∃ c ∈ s, isPySpace c = false := by
  simp only [Server.emailCore, Bool.and_eq_true, decide_eq_true_eq] at h
  obtain ⟨⟨⟨⟨hlt, hne⟩, hns⟩, hrest⟩, hdot⟩ := h
  cases htw : s.takeWhile (fun c => c != '@') with
  | nil => rw [htw] at hne; simp at hne
  | cons c t =>
    refine ⟨c, ?_, ?_⟩
    · exact (List.takeWhile_sublist _).mem (htw ▸ List.mem_cons_self c t)
    · have := List.all_eq_true.mp (htw ▸ hns) c (List.mem_cons_self c t)
      simpa using this

theorem Server.emailMatch_nonspace_mem {s : List Char}
    (h : Server.emailMatch s = true) : ∃ c ∈ s, isPySpace c = false := by
  simp only [Server.emailMatch, dollarMatch, Bool.or_eq_true, Bool.and_eq_true] at h
  rcases h with h | ⟨⟨hne, hlast⟩, hcore⟩
  · exact Server.emailCore_nonspace_mem h
  · obtain ⟨c, hc, hns⟩ := Server.emailCore_nonspace_mem hcore
    exact ⟨c, (List.dropLast_sublist s).mem hc, hns⟩

theorem Server.passwordMatch_allowed {s : List Char}
    (h : Server.passwordMatch s = true) :
    (∀ c ∈ s, Server.pwAllowed c = true) ∨
      (s.getLastD ' ' = '\n' ∧ ∀ c ∈ s.dropLast, Server.pwAllowed c = true) := by
  simp only [Server.passwordMatch, dollarMatch, Bool.or_eq_true, Bool.and_eq_true] at h
  rcases h with h | ⟨⟨hne, hlast⟩, hcore⟩
  · left
    simp only [Server.passwordCore, Bool.and_eq_true, List.all_eq_true] at h
    exact h.2
  · right
    refine ⟨by simpa using hlast, ?_⟩
    simp only [Server.passwordCore, Bool.and_eq_true, List.all_eq_true] at hcore
    exact hcore.2

theorem Server.validate_required_passes {f : String} {s : List Char} {e : FieldErrors}
    (h0 : s ≠ []) (h1 : pyStrip s ≠ []) :
    Server.validate_required f (VStr s) e = .ok (true, e) := by
  simp only [Server.validate_required]
  rw [if_neg]
  simp only [Bool.or_eq_true, List.isEmpty_eq_true, not_or]
  exact ⟨h0, h1⟩

theorem Server.validate_email_too_long {s : List Char} {e : FieldErrors}
    (hm : Server.emailMatch s = true) (hlen : 254 < s.length) :
    Server.validate_email (VStr s) e =
      .ok (false, setError e "email" "Email address is too long") := by
  obtain ⟨c, hc, hns⟩ := Server.emailMatch_nonspace_mem hm
  have hreq := Server.validate_required_passes (f := "email") (e := e)
    (List.ne_nil_of_mem hc) (pyStrip_ne_nil hc hns)
  simp [Server.validate_email, hreq, hm, hlen]

theorem Server.validate_password_too_long {s : List Char} {e : FieldErrors}
    (hstrip : pyStrip s ≠ []) (hlen : 128 < s.length) :
    Server.validate_password (VStr s) e =
      .ok (false, setError e "password" "Password is too long (max 128 characters)") := by
  have h0 : s ≠ [] := by
    intro h
    rw [h] at hlen
    simp at hlen
  have hreq := Server.validate_required_passes (f := "password") (e := e) h0 hstrip
  simp [Server.validate_password, hreq, hlen, show ¬s.length < 8 by omega]

theorem Server.validate_password_long_flag {s : List Char} {e e' : FieldErrors} {b : Bool}
    (hlen : 128 < s.length)
    (h : Server.validate_password (VStr s) e = .ok (b, e')) : b = false := by
  cases b
  · rfl
  · have := (Server.validate_password_accepts h).2.1
    omega

theorem Forms.validate_age_none (e : List String) :
    Forms.validate_age VNone e = (true, e) := rfl

theorem Forms.validate_age_badstr {s : List Char} (e : List String)
    (h : Forms.pyIntOfStr s = none) :
    Forms.validate_age (VStr s) e = (false, e ++ ["Age must be a valid number"]) := by
  simp only [Forms.validate_age, Forms.pyIntOfValue, h]

theorem Forms.validate_age_low {v : Value} {n : Int} (e : List String)
    (hv : v ≠ VNone) (hp : Forms.pyIntOfValue v = some n) (hn : n < 13) :
    Forms.validate_age v e =
      (false, e ++ ["You must be at least 13 years old to register"]) := by
  rcases v with s | m | _
  · simp only [Forms.validate_age, hp]
    rw [if_pos hn]
  · simp only [Forms.validate_age, hp]
    rw [if_pos hn]
  · exact absurd rfl hv

theorem Forms.validate_age_high {v : Value} {n : Int} (e : List String)
    (hv : v ≠ VNone) (hp : Forms.pyIntOfValue v = some n) (hn : 150 < n) :
    Forms.validate_age v e = (false, e ++ ["Please enter a valid age"]) := by
  rcases v with s | m | _
  · simp only [Forms.validate_age, hp]
    rw [if_neg (by omega), if_pos hn]
  · simp only [Forms.validate_age, hp]
    rw [if_neg (by omega), if_pos hn]
  · exact absurd rfl hv

theorem Forms.validate_age_in_range {v : Value} {n : Int} (e : List String)
    (hp : Forms.pyIntOfValue v = some n) (h13 : 13 ≤ n) (h150 : n ≤ 150) :
    Forms.validate_age v e = (true, e) := by
  rcases v with s | m | _
  · simp only [Forms.validate_age, hp]
    rw [if_neg (by omega), if_neg (by omega)]
  · simp only [Forms.validate_age, hp]
    rw [if_neg (by omega), if_neg (by omega)]
  · simp [Forms.pyIntOfValue] at hp

theorem Server.validate_password_disallowed_char {s : List Char} {e e' : FieldErrors}
    (hbad : ∃ c ∈ s, Server.pwAllowed c = false)
    (hnl : ¬(s.getLastD ' ' = '\n' ∧ ∀ c ∈ s.dropLast, Server.pwAllowed c = true)) :
    Server.validate_password (VStr s) e ≠ .ok (true, e') := by
  intro h
  obtain ⟨c, hc, hcb⟩ := hbad
  rcases Server.passwordMatch_allowed (Server.validate_password_accepts h).2.2 with
    hall | hnl2
  · rw [hall c hc] at hcb
    exact Bool.noConfusion hcb
  · exact hnl hnl2

theorem SOkKey.ofTrueK {key : String} {e : FieldErrors} : SOkKey key e true e :=
  ⟨fun _ => rfl, by simp⟩

theorem SOkKey.ofFalseK {key : String} {e : FieldErrors} {m : String} :
    SOkKey key e false (setError e key m) :=
  ⟨by simp, fun _ => ⟨m, rfl⟩⟩

theorem SOkKey.castK {key : String} {e E e' : FieldErrors} {c b : Bool}
    (h : (Except.ok (c, E) : Except PyError (Bool × FieldErrors)) = .ok (b, e'))
    (s : SOkKey key e c E) : SOkKey key e b e' := by
  simp only [Except.ok.injEq, Prod.mk.injEq] at h
  obtain ⟨hb, he⟩ := h
  subst hb; subst he
  exact s

theorem Server.validate_required_sokKey {f : String} {v : Value} {e : FieldErrors}
    {b : Bool} {e' : FieldErrors}
    (h : Server.validate_required f v e = .ok (b, e')) : SOkKey f e b e' := by
  rcases v with s | n | _
  · simp only [Server.validate_required] at h
    split at h
    · exact SOkKey.castK h SOkKey.ofFalseK
    · exact SOkKey.castK h SOkKey.ofTrueK
  · simp only [Server.validate_required] at h
    split at h
    · exact SOkKey.castK h SOkKey.ofFalseK
    · exact Except.noConfusion h
  · simp only [Server.validate_required] at h
    exact SOkKey.castK h SOkKey.ofFalseK

theorem Server.validate_password_sokKey {v : Value} {e : FieldErrors}
    {b : Bool} {e' : FieldErrors}
    (h : Server.validate_password v e = .ok (b, e')) : SOkKey "password" e b e' := by
  simp only [Server.validate_password] at h
  split at h
  · exact Except.noConfusion h
  · next errs1 heq =>
    rcases (Server.validate_required_sokKey heq).2 rfl with ⟨m, hm⟩
    subst hm
    exact SOkKey.castK h SOkKey.ofFalseK
  · next errs1 heq =>
    have he1 : errs1 = e := (Server.validate_required_sokKey heq).1 rfl
    subst he1
    split at h
    · split at h
      · exact SOkKey.castK h SOkKey.ofFalseK
      · split at h
        · exact SOkKey.castK h SOkKey.ofFalseK
        · split at h
          · exact SOkKey.castK h SOkKey.ofFalseK
          · exact SOkKey.castK h SOkKey.ofTrueK
    · exact Except.noConfusion h

theorem Server.validate_registration_isOk {d : Server.RegData} {e0 : FieldErrors}
    (hd : strInputs d = true) :
    (Server.validate_registration d e0).isOk = true := by
  obtain ⟨r, hr⟩ := @Server.validate_registration_no_raise d e0 hd
  rw [hr]
  rfl

theorem Forms.validate_isOk {fd : Forms.FormData} {e0 : List String}
    (hd : strInputsF fd = true) :
    (Forms.validate fd e0).isOk = true := by
  obtain ⟨r, hr⟩ := @Forms.validate_no_raise fd e0 hd
  rw [hr]
  rfl

/-- C1: for every input map, the validity flag returned by a full validation
call equals the emptiness of the returned/accumulated error collection:
`validate_registration` returns `(b, errors)` with `b = errors.isEmpty`, and
`RegistrationForm.validate` returns `true` iff the accumulated error list is
empty. -/
theorem claim_C1 :
    (∀ (d : Server.RegData) (e0 : FieldErrors) (b : Bool) (errs : FieldErrors),
      Server.validate_registration d e0 = .ok (b, errs) → b = errs.isEmpty) ∧
    (∀ (fd : Forms.FormData) (e0 : List String) (b : Bool) (errs : List String),
      Forms.validate fd e0 = .ok (b, errs) → b = errs.isEmpty) :=
  ⟨fun _ _ _ _ h => Server.validate_registration_flag h,
   fun _ _ _ _ h => Forms.validate_flag h⟩

/-- Witness for C1 at a concrete valid payload. -/
theorem claim_C1_witness : true = ([] : FieldErrors).isEmpty :=
  claim_C1.1
    ⟨some (VStr "John".data), some (VStr "Doe".data),
     some (VStr "john@example.com".data), some (VStr "SecurePass123!".data),
     some (VStr "SecurePass123!".data)⟩ [] true [] rfl

/-- C2 counterexample: the password `"abc"` violates several rules at once
(minimum length, missing uppercase, missing digit, missing special character)
but both variants report only the first failing rule — the length error — as a
single entry. -/
theorem claim_C2_cex :
    Forms.validate_password (VStr "abc".data) [] =
      .ok (false, ["Password must be at least 8 characters long"]) ∧
    Server.validate_password (VStr "abc".data) [] =
      .ok (false, [("password", "Password must be at least 8 characters long")]) ∧
    "abc".data.any Char.isUpper = false ∧ "abc".data.any Char.isDigit = false :=
  ⟨rfl, rfl, by decide, by decide⟩

/-- C2 (amended): password validation short-circuits at the first failing rule.
A password-validation call never reports more than one error: on success the
accumulator is unchanged, on failure exactly one password entry (for the first
failing rule) is added, in both variants. -/
theorem claim_C2 :
    (∀ (v : Value) (e : FieldErrors) (b : Bool) (e' : FieldErrors),
      Server.validate_password v e = .ok (b, e') →
        (b = true → e' = e) ∧ (b = false → ∃ m, e' = setError e "password" m)) ∧
    (∀ (v : Value) (e : List String) (b : Bool) (e' : List String),
      Forms.validate_password v e = .ok (b, e') →
        (b = true → e' = e) ∧ (b = false → ∃ m, e' = e ++ [m])) :=
  ⟨fun _ _ _ _ h => Server.validate_password_sokKey h,
   fun _ _ _ _ h => Forms.validate_password_fok h⟩

/-- Witness for C2 at the concrete password `"abc"`. -/
theorem claim_C2_witness :
    ∃ m, ["Password must be at least 8 characters long"] = ([] : List String) ++ [m] :=
  (claim_C2.2 (VStr "abc".data) [] false
    ["Password must be at least 8 characters long"] rfl).2 rfl

/-- C3 counterexample: a truthy numeric value in a string field is not turned
into an error entry — the full validation call raises: the server variant hits
`AttributeError` (`int.strip()`), the forms variant hits `TypeError`
(`re.match` on an `int` phone). -/
theorem claim_C3_cex :
    Server.validate_registration
      ⟨some (VNum 123), some (VStr "Doe".data), some (VStr "a@b.co".data),
       some (VStr "SecurePass123!".data), some (VStr "SecurePass123!".data)⟩ [] =
      .error .attributeError ∧
    Forms.validate
      ⟨some (VStr "bob_1".data), some (VStr "b@c.de".data),
       some (VStr "Secure1!".data), some (VStr "Secure1!".data), none,
       some (VNum 1234567890)⟩ [] = .error .typeError :=
  ⟨rfl, rfl⟩

/-- C3 (amended): for every input map whose present values are all strings or
`None`, a full validation call never raises (wrong-typed string contents such
as a non-numeric age become regular error entries); truthy numeric values in
string fields, however, raise instead of producing an error entry. -/
theorem claim_C3 :
    (∀ (d : Server.RegData) (e0 : FieldErrors), strInputs d = true →
      (Server.validate_registration d e0).isOk = true) ∧
    (∀ (fd : Forms.FormData) (e0 : List String), strInputsF fd = true →
      (Forms.validate fd e0).isOk = true) :=
  ⟨fun _ _ h => Server.validate_registration_isOk h,
   fun _ _ h => Forms.validate_isOk h⟩

/-- Witness for C3 at concrete all-string / `None` payloads (including a
non-numeric age string in the forms variant). -/
theorem claim_C3_witness :
    (Server.validate_registration
      ⟨some (VStr "".data), some VNone, none, some (VStr "x".data), none⟩
      []).isOk = true ∧
    (Forms.validate
      ⟨some (VStr "bob".data), none, some VNone, some (VStr "x".data),
       some (VStr "abc".data), some (VStr "nope".data)⟩ []).isOk = true :=
  ⟨claim_C3.1 _ [] (by decide), claim_C3.2 _ [] (by decide)⟩

/-- C4 counterexample: the forms variant has no maximum-length check: a
129-character password satisfying the character-class checks is accepted. -/
theorem claim_C4_cex :
    Forms.validate_password (VStr ("Aa1!".data ++ List.replicate 125 'a')) [] =
      .ok (true, []) ∧
    ("Aa1!".data ++ List.replicate 125 'a').length = 129 :=
  ⟨rfl, by decide⟩

/-- C4 (amended): the server variant accepts a password only if its length is
between 8 and 128 inclusive, and rejects every longer password (with the
too-long message whenever the password is not blank); the forms variant
enforces only the minimum length 8 and has no upper bound. -/
theorem claim_C4 :
    (∀ (s : List Char) (e e' : FieldErrors),
      Server.validate_password (VStr s) e = .ok (true, e') →
        8 ≤ s.length ∧ s.length ≤ 128) ∧
    (∀ (s : List Char) (e e' : FieldErrors) (b : Bool), 128 < s.length →
      Server.validate_password (VStr s) e = .ok (b, e') → b = false) ∧
    (∀ (s : List Char) (e : FieldErrors), pyStrip s ≠ [] → 128 < s.length →
      Server.validate_password (VStr s) e =
        .ok (false,
          setError e "password" "Password is too long (max 128 characters)")) ∧
    (∀ (s : List Char) (e e' : List String),
      Forms.validate_password (VStr s) e = .ok (true, e') → 8 ≤ s.length) :=
  ⟨fun _ _ _ h => ⟨(Server.validate_password_accepts h).1,
      (Server.validate_password_accepts h).2.1⟩,
   fun _ _ _ _ hl h => Server.validate_password_long_flag hl h,
   fun _ _ hs hl => Server.validate_password_too_long hs hl,
   fun _ _ _ h => Forms.validate_password_acceptsF h⟩

/-- Witness for C4: a 129-character non-blank password is rejected by the
server variant with the too-long message. -/
theorem claim_C4_witness :
    Server.validate_password (VStr (List.replicate 129 'a')) [] =
      .ok (false,
        setError [] "password" "Password is too long (max 128 characters)") :=
  claim_C4.2.2.1 (List.replicate 129 'a') [] (by decide) (by decide)

/-- C5 counterexample: the forms variant performs no length check on emails: a
295-character address matching its pattern is accepted. -/
theorem claim_C5_cex :
    Forms.validate_email (VStr (List.replicate 290 'a' ++ "@b.co".data)) [] =
      .ok (true, []) ∧
    254 < (List.replicate 290 'a' ++ "@b.co".data).length :=
  ⟨rfl, by decide⟩

/-- C5 (amended): the server variant accepts an email only if it matches
`EMAIL_REGEX` (one `@`, a dot inside the domain, no whitespace characters in
the matched body) and its length is at most 254, and rejects every matching but
longer address with the too-long error; `"user@domain"` is rejected with the
invalid-format error by both variants; the forms variant accepts only
`EMAIL_PATTERN` matches but enforces no length bound. -/
theorem claim_C5 :
    (∀ (s : List Char) (e e' : FieldErrors),
      Server.validate_email (VStr s) e = .ok (true, e') →
        Server.emailMatch s = true ∧ s.length ≤ 254) ∧
    (∀ (s : List Char) (e : FieldErrors), Server.emailMatch s = true →
      254 < s.length →
      Server.validate_email (VStr s) e =
        .ok (false, setError e "email" "Email address is too long")) ∧
    (Server.validate_email (VStr "user@domain".data) [] =
      .ok (false, [("email", "Please enter a valid email address")]) ∧
     Forms.validate_email (VStr "user@domain".data) [] =
      .ok (false, ["Invalid email format"])) ∧
    (∀ (s : List Char) (e e' : List String),
      Forms.validate_email (VStr s) e = .ok (true, e') →
        Forms.emailMatch s = true) :=
  ⟨fun _ _ _ h => Server.validate_email_accepts h,
   fun _ _ hm hl => Server.validate_email_too_long hm hl,
   ⟨rfl, rfl⟩,
   fun _ _ _ h => Forms.validate_email_acceptsF h⟩

/-- Witness for C5: a concrete 257-character pattern-matching address is
rejected by the server variant with the too-long error. -/
theorem claim_C5_witness :
    Server.validate_email (VStr (List.replicate 252 'a' ++ "@b.co".data)) [] =
      .ok (false, setError [] "email" "Email address is too long") :=
  claim_C5.2.1 (List.replicate 252 'a' ++ "@b.co".data) [] (by decide) (by decide)

/-- C6: forms age validation: `None` passes unchanged; a string whose Python
`int(...)` parse fails adds the invalid-number error; a parsed value below 13
or above 150 adds the corresponding out-of-range error; every value parsing to
an integer in `[13, 150]` passes unchanged. -/
theorem claim_C6 :
    (∀ e : List String, Forms.validate_age VNone e = (true, e)) ∧
    (∀ (s : List Char) (e : List String), Forms.pyIntOfStr s = none →
      Forms.validate_age (VStr s) e =
        (false, e ++ ["Age must be a valid number"])) ∧
    (∀ (v : Value) (n : Int) (e : List String), v ≠ VNone →
      Forms.pyIntOfValue v = some n → n < 13 →
      Forms.validate_age v e =
        (false, e ++ ["You must be at least 13 years old to register"])) ∧
    (∀ (v : Value) (n : Int) (e : List String), v ≠ VNone →
      Forms.pyIntOfValue v = some n → 150 < n →
      Forms.validate_age v e = (false, e ++ ["Please enter a valid age"])) ∧
    (∀ (v : Value) (n : Int) (e : List String),
      Forms.pyIntOfValue v = some n → 13 ≤ n → n ≤ 150 →
      Forms.validate_age v e = (true, e)) :=
  ⟨Forms.validate_age_none,
   fun _ e h => Forms.validate_age_badstr e h,
   fun _ _ e hv hp hn => Forms.validate_age_low e hv hp hn,
   fun _ _ e hv hp hn => Forms.validate_age_high e hv hp hn,
   fun _ _ e hp h13 h150 => Forms.validate_age_in_range e hp h13 h150⟩

/-- Witness for C6 at the concrete ages `"abc"`, `12`, `151` and `30`. -/
theorem claim_C6_witness :
    Forms.validate_age (VStr "abc".data) [] =
      (false, ["Age must be a valid number"]) ∧
    Forms.validate_age (VNum 12) [] =
      (false, ["You must be at least 13 years old to register"]) ∧
    Forms.validate_age (VNum 151) [] = (false, ["Please enter a valid age"]) ∧
    Forms.validate_age (VNum 30) [] = (true, []) :=
  ⟨claim_C6.2.1 "abc".data [] (by decide),
   claim_C6.2.2.1 (VNum 12) 12 [] (by decide) (by decide) (by decide),
   claim_C6.2.2.2.1 (VNum 151) 151 [] (by decide) (by decide) (by decide),
   claim_C6.2.2.2.2 (VNum 30) 30 [] (by decide) (by decide) (by decide)⟩

/-- C7: validation is deterministic and idempotent: both full validation calls
reset the error accumulator on entry, so the outcome is independent of the
accumulator state left by any earlier call on the same instance, and identical
across fresh instances. -/
theorem claim_C7 :
    (∀ (d : Server.RegData) (e1 e2 : FieldErrors),
      Server.validate_registration d e1 = Server.validate_registration d e2) ∧
    (∀ (fd : Forms.FormData) (e1 e2 : List String),
      Forms.validate fd e1 = Forms.validate fd e2) :=
  ⟨fun _ _ _ => rfl, fun _ _ _ => rfl⟩

/-- C8: for every input string the sanitizer returns the string with all
control characters (below 0x20 and 0x7F) removed, internal whitespace runs
collapsed to single spaces, and the ends trimmed; in particular an input with
a NUL byte and repeated internal spaces collapses and trims as specified. -/
theorem claim_C8 :
    (∀ v : List Char, Server.sanitize_input v = specSanitize v) ∧
    Server.sanitize_input "  a\x00  b  ".data = "a b".data :=
  ⟨sanitize_eq_spec, rfl⟩

/-- C9 counterexample: the password `"Abcdef1!\n"` contains a character (the
newline) outside the allowed set, lies within the length bounds and contains
all four required classes, yet the server variant accepts it: Python's `$`
matches just before a trailing newline. -/
theorem claim_C9_cex :
    Server.validate_password (VStr "Abcdef1!\n".data) [] = .ok (true, []) ∧
    '\n' ∈ "Abcdef1!\n".data ∧ Server.pwAllowed '\n' = false ∧
    8 ≤ "Abcdef1!\n".data.length ∧ "Abcdef1!\n".data.length ≤ 128 ∧
    "Abcdef1!\n".data.any Char.isUpper = true ∧
    "Abcdef1!\n".data.any Char.isLower = true ∧
    "Abcdef1!\n".data.any Char.isDigit = true ∧
    "Abcdef1!\n".data.any Server.pwSpecial = true :=
  ⟨rfl, by decide, by decide, by decide, by decide, by decide, by decide,
   by decide, by decide⟩

/-- C9 (amended): in the first_name/last_name (server) variant, every password
containing a character outside letters, digits and `@$!%*?&#` is rejected,
unless that password ends in a newline and all its other characters are
allowed (Python's `$` tolerates one trailing newline). In particular a space,
underscore or comma anywhere forces rejection. -/
theorem claim_C9 :
    ∀ (s : List Char) (e e' : FieldErrors),
      (∃ c ∈ s, Server.pwAllowed c = false) →
      ¬(s.getLastD ' ' = '\n' ∧ ∀ c ∈ s.dropLast, Server.pwAllowed c = true) →
      Server.validate_password (VStr s) e ≠ .ok (true, e') :=
  fun _ _ _ hb hn => Server.validate_password_disallowed_char hb hn

/-- Witness for C9 at a concrete password containing a space. -/
theorem claim_C9_witness :
    Server.validate_password (VStr "Abcdef1! x".data) [] ≠ .ok (true, []) :=
  claim_C9 "Abcdef1! x".data [] [] (by decide) (by decide)

/-- C10: the sanitizer is idempotent: sanitizing an already-sanitized string
returns it unchanged. -/
theorem claim_C10 :
    ∀ v : List Char,
      Server.sanitize_input (Server.sanitize_input v) = Server.sanitize_input v :=
  sanitize_idem
